import Mathlib

/-!
Shallow embedding of `excel_to_json.py`: a batch converter that reads a
directory of spreadsheet files of civil-service job listings, extracts one
record per data row, and aggregates them into a single document
`{ data, total, cities }`.

Modelling choices:
* a spreadsheet cell is `Option String`: `none` models a missing value (NaN
  in pandas), `some s` models a cell whose `str()` rendering is `s`;
* `pd.read_excel(path, header=h)` yields the physical rows after row `h`
  (row `h` itself becomes the column labels);
* a file whose read raises is modelled as `none : Option ExcelFile`; the
  `except` handler of `read_excel_file` turns it into zero records;
* Python `str.strip()` is `pyStrip`, Python substring test `a in b` is
  `pyIn`, both executable.
-/

/-- A spreadsheet cell as pandas presents it: `none` models a missing value
(NaN); `some s` a cell whose `str()` rendering is `s`. -/
abbrev Cell := Option String

/-- One row of a parsed spreadsheet. -/
abbrev Row := List Cell

/-- Python `str.strip()`: remove leading and trailing whitespace. -/
def pyStrip (s : String) : String :=
  String.mk (((s.data.dropWhile Char.isWhitespace).reverse.dropWhile
    Char.isWhitespace).reverse)

/-- Python `needle in hay` on strings: substring containment. -/
def pyIn (needle hay : String) : Bool := decide (needle.data <:+: hay.data)

/-- `str(row.iloc[i]).strip() if len(row) > i and not pd.isna(row.iloc[i])
else ''` (source lines 112-125): the stripped value of cell `i`, or `""`
when the cell is missing or the row is too short. -/
def cellStr (row : Row) (i : Nat) : String :=
  match row.getD i none with
  | some s => pyStrip s
  | none => ""

/-- Source line 101: `pd.isna(row.iloc[0]) or str(row.iloc[0]).strip() == ''`. -/
def firstCellBlank (row : Row) : Bool :=
  match row.getD 0 none with
  | none => true
  | some s => pyStrip s == ""

/-- Source lines 66 and 105: `'隶属' in str(...) or '关系' in str(...)`. -/
def firstCellMarker (row : Row) : Bool :=
  match row.getD 0 none with
  | none => false
  | some s => pyIn "隶属" s || pyIn "关系" s

/-- Source line 62: the first cell is NaN or strips to one of the known
header labels `['隶属', '市', '省']`. -/
def firstCellHeaderLabel (row : Row) : Bool :=
  match row.getD 0 none with
  | none => true
  | some s => pyStrip s == "隶属" || pyStrip s == "市" || pyStrip s == "省"

/-- The record built at source lines 110-126 for one data row: the 15 short
keys of the output objects, all string-valued. -/
structure Job where
  c : String
  r : String
  rc : String
  rn : String
  uc : String
  un : String
  pc : String
  pn : String
  pd : String
  et : String
  kr : String
  rh : String
  ed : String
  mj : String
  ot : String
deriving Repr, DecidableEq

/-- Source lines 110-126: positional columns 0-13 mapped to the 14 named
fields, plus the city tag. -/
def mkJob (city : String) (row : Row) : Job :=
  { c := city
    r := cellStr row 0
    rc := cellStr row 1
    rn := cellStr row 2
    uc := cellStr row 3
    un := cellStr row 4
    pc := cellStr row 5
    pn := cellStr row 6
    pd := cellStr row 7
    et := cellStr row 8
    kr := cellStr row 9
    rh := cellStr row 10
    ed := cellStr row 11
    mj := cellStr row 12
    ot := cellStr row 13 }

/-- The body of the row loop (source lines 99-133): skip blank-first rows,
skip stray header rows, build the record, keep it only when `pn` or `un`
is non-empty. -/
def rowJob (city : String) (row : Row) : Option Job :=
  if firstCellBlank row then none
  else if firstCellMarker row then none
  else
    let job := mkJob city row
    if job.pn = "" ∧ job.un = "" then none else some job

/-- The whole row loop over a data frame. -/
def extractJobs (city : String) (rows : List Row) : List Job :=
  rows.filterMap (rowJob city)

/-- A spreadsheet file as its list of physical rows (row 0 is the title
row that `header=1` skips). -/
structure ExcelFile where
  rows : List Row
deriving Repr, DecidableEq

/-- `pd.read_excel(path, header=h)`: row `h` becomes the column labels and
the data frame holds the rows after it. -/
def dataRows (f : ExcelFile) (h : Nat) : List Row := f.rows.drop (h + 1)

/-- Source lines 52-69: parse with `header=1`; when the first data row has a
NaN or known-header-label first cell and the following row carries the
header-marker substrings, re-parse with `header=2`. Returns the offset
finally used. -/
def chooseHeader (f : ExcelFile) : Nat :=
  match dataRows f 1 with
  | [] => 1
  | first :: rest =>
    if firstCellHeaderLabel first then
      match rest with
      | [] => 1
      | second :: _ => if firstCellMarker second then 2 else 1
    else 1

/-- `read_excel_file` on a file pandas could read: header-offset detection
(lines 52-69) followed by the row loop (lines 99-133). -/
def parseJobs (f : ExcelFile) (city : String) : List Job :=
  extractJobs city (dataRows f (chooseHeader f))

/-- `read_excel_file` (source lines 24-139): `none` models a file whose
read raises; the handler at lines 137-139 turns that into `[]`. -/
def read_excel_file (file : Option ExcelFile) (city : String) : List Job :=
  match file with
  | some f => parseJobs f city
  | none => []

/-- Everything before the last dot: models `pathlib.Path(name).stem` for
the visible `*.xls` / `*.xlsx` names the program globs. -/
def dropLastExt : List Char → List Char
  | [] => []
  | c :: cs => if c = '.' ∧ '.' ∉ cs then [] else c :: dropLastExt cs

/-- `excel_file.stem` (source line 168). -/
def stem (name : String) : String := String.mk (dropLastExt name.data)

/-- The characters after the first dash, when there is one: models
`city_name.split('-', 1)[1]` guarded by `'-' in city_name`. -/
def afterFirstDash : List Char → Option (List Char)
  | [] => none
  | c :: cs => if c = '-' then some cs else afterFirstDash cs

/-- Source lines 170-171: keep only what follows the first dash of the
stem, when the stem contains a dash at all. -/
def cityLabel (stemStr : String) : String :=
  match afterFirstDash stemStr.data with
  | some rest => String.mk rest
  | none => stemStr

/-- One directory entry: a file name plus its parsed content; `none` models
a file that cannot be read or parsed. -/
structure DirEntry where
  name : String
  content : Option ExcelFile
deriving Repr, DecidableEq

/-- The comparison `sorted` uses on the globbed paths: lexicographic on the
file name. -/
def nameLe (a b : DirEntry) : Bool := decide (a.name ≤ b.name)

/-- The name test of `glob('*.xls')`: the file name ends with the given
extension (written via `isPrefixOf` on the reversed character lists so it
evaluates by kernel reduction). -/
def nameEndsWith (s pat : String) : Bool :=
  pat.data.reverse.isPrefixOf s.data.reverse

/-- Source lines 159-162: `sorted(glob('*.xls'))`, falling back to
`sorted(glob('*.xlsx'))` when no `.xls` file exists. -/
def discoverEntries (dir : List DirEntry) : List DirEntry :=
  let xls := (dir.filter (fun e => nameEndsWith e.name ".xls")).mergeSort nameLe
  if xls.isEmpty then
    (dir.filter (fun e => nameEndsWith e.name ".xlsx")).mergeSort nameLe
  else xls

/-- The loop of source lines 166-176: per file, derive the city label from
the file name and extend the aggregate with the extracted records. -/
def collectJobs (files : List DirEntry) : List Job :=
  files.flatMap (fun e => read_excel_file e.content (cityLabel (stem e.name)))

/-- The output document shape `{ data, total, cities }`. -/
structure ConversionResult where
  data : List Job
  total : Nat
  cities : List String
deriving Repr, DecidableEq

/-- `process_all_excel_files` (source lines 142-186). `list(set(...))` at
line 181 is modelled as `dedup`: some duplicate-free enumeration of the
set of city values. -/
def process_all_excel_files (dir : List DirEntry) : ConversionResult :=
  let all_jobs := collectJobs (discoverEntries dir)
  { data := all_jobs
    total := all_jobs.length
    cities := (all_jobs.map Job.c).dedup }

/-- The state `main` acts on: whether the hard-coded input directory
exists, its entries, and the current content of the output file (`none`
when absent). -/
structure World where
  dirExists : Bool
  dir : List DirEntry
  output : Option ConversionResult
deriving Repr, DecidableEq

/-- `main` (source lines 189-218; Lean reserves the name `main`): the new
world plus a flag that is `true` exactly when the run aborted with the
missing-directory error (in which case the output file is not touched). -/
def mainRun (w : World) : World × Bool :=
  if w.dirExists then
    ({ w with output := some (process_all_excel_files w.dir) }, false)
  else (w, true)

/-- The retention condition the row loop implements, as one boolean. -/
def retain (row : Row) : Bool :=
  !firstCellBlank row && !firstCellMarker row &&
    !(cellStr row 6 == "" && cellStr row 4 == "")

theorem rowJob_eq_retain (city : String) (row : Row) :
    rowJob city row = if retain row = true then some (mkJob city row) else none := by
  unfold rowJob retain
  cases h1 : firstCellBlank row <;> cases h2 : firstCellMarker row <;>
    simp [mkJob]
  by_cases h6 : cellStr row 6 = "" <;> by_cases h4 : cellStr row 4 = "" <;>
    simp [h6, h4, mkJob]

theorem mem_extractJobs (city : String) (rows : List Row) (job : Job) :
    job ∈ extractJobs city rows ↔
      ∃ row ∈ rows, retain row = true ∧ job = mkJob city row := by
  simp only [extractJobs, List.mem_filterMap, rowJob_eq_retain]
  constructor
  · rintro ⟨row, hmem, hsome⟩
    by_cases h : retain row = true
    · refine ⟨row, hmem, h, ?_⟩
      simp [h] at hsome
      exact hsome.symm
    · simp [h] at hsome
  · rintro ⟨row, hmem, hret, rfl⟩
    exact ⟨row, hmem, by simp [hret]⟩

theorem retain_eq_true_iff (row : Row) :
    retain row = true ↔
      firstCellBlank row = false ∧ firstCellMarker row = false ∧
        (cellStr row 6 ≠ "" ∨ cellStr row 4 ≠ "") := by
  unfold retain
  cases h1 : firstCellBlank row <;> cases h2 : firstCellMarker row <;>
    by_cases h6 : cellStr row 6 = "" <;> by_cases h4 : cellStr row 4 = "" <;>
      simp [h6, h4]

/-- C2: the `total` field of the output document equals the length of its
`data` list. -/
theorem c2_total_eq_length (dir : List DirEntry) :
    (process_all_excel_files dir).total = (process_all_excel_files dir).data.length :=
  rfl

/-- C3: the `cities` list of the output document, viewed as a set, equals
the set of distinct `c` values across the records of `data`, and it holds
no duplicates. -/
theorem c3_cities_set_eq (dir : List DirEntry) :
    (process_all_excel_files dir).cities.toFinset =
      ((process_all_excel_files dir).data.map Job.c).toFinset ∧
    (process_all_excel_files dir).cities.Nodup := by
  constructor
  · ext x
    simp [process_all_excel_files, List.mem_dedup]
  · exact List.nodup_dedup _

def c1Row : Row := [none, none, none, none, some "市级机关办公室", none, some "综合管理岗"]

def c1File : ExcelFile := ⟨[[some "职位表"], [some "隶属关系"], c1Row]⟩

/-- C1: counterexample. The claim says a record appears in `data` iff the
row's position-name or unit-name is non-blank, with no other condition.
But the row loop first skips every row whose first cell is missing or
blank: here a data row with a non-blank position name and unit name but a
missing first cell yields no record. -/
theorem c1_counterexample :
    cellStr c1Row 6 ≠ "" ∧ cellStr c1Row 4 ≠ "" ∧
    c1Row ∈ dataRows c1File (chooseHeader c1File) ∧
    parseJobs c1File "南京" = [] := by decide

/-- C1 amended: a record appears in the extracted list iff its source row
passed the blank-first-cell and stray-header-row skips AND its
position-name or unit-name is non-blank after trimming; `data` is the
concatenation of the per-file extractions over the discovered entries. -/
theorem c1_retention_amended :
    (∀ (f : ExcelFile) (city : String) (job : Job),
      job ∈ parseJobs f city ↔
        ∃ row ∈ dataRows f (chooseHeader f),
          (firstCellBlank row = false ∧ firstCellMarker row = false ∧
            (cellStr row 6 ≠ "" ∨ cellStr row 4 ≠ "")) ∧
          job = mkJob city row) ∧
    (∀ (dir : List DirEntry) (job : Job),
      job ∈ (process_all_excel_files dir).data ↔
        ∃ e ∈ discoverEntries dir,
          job ∈ read_excel_file e.content (cityLabel (stem e.name))) := by
  constructor
  · intro f city job
    rw [parseJobs, mem_extractJobs]
    constructor
    · rintro ⟨row, hmem, hret, rfl⟩
      exact ⟨row, hmem, (retain_eq_true_iff row).mp hret, rfl⟩
    · rintro ⟨row, hmem, hcond, rfl⟩
      exact ⟨row, hmem, (retain_eq_true_iff row).mpr hcond, rfl⟩
  · intro dir job
    simp [process_all_excel_files, collectJobs, List.mem_flatMap]

/-- C4: the header-offset heuristic. Extraction always works on the data
rows below the chosen header; the offset is bumped from 1 to 2 exactly
when the first parsed data row's first cell is missing or a known header
label and the following row carries a header-marker substring; no other
offset is ever used. -/
theorem c4_header_offset_detection (f : ExcelFile) (city : String) :
    parseJobs f city = extractJobs city (dataRows f (chooseHeader f)) ∧
    (chooseHeader f = 2 ↔
      ∃ first second rest, dataRows f 1 = first :: second :: rest ∧
        firstCellHeaderLabel first = true ∧ firstCellMarker second = true) ∧
    (chooseHeader f = 1 ∨ chooseHeader f = 2) := by
  refine ⟨rfl, ⟨?_, ?_⟩, ?_⟩
  · intro h2eq
    rcases hd : dataRows f 1 with _ | ⟨first, _ | ⟨second, rest⟩⟩ <;>
      simp only [chooseHeader, hd] at h2eq
    · omega
    · split at h2eq <;> omega
    · by_cases hl : firstCellHeaderLabel first = true
      · by_cases hm : firstCellMarker second = true
        · exact ⟨first, second, rest, rfl, hl, hm⟩
        · simp [hl, hm] at h2eq
      · simp [hl] at h2eq
  · rintro ⟨first, second, rest, hd, hl, hm⟩
    simp [chooseHeader, hd, hl, hm]
  · rcases hd : dataRows f 1 with _ | ⟨first, _ | ⟨second, rest⟩⟩ <;>
      simp only [chooseHeader, hd]
    · trivial
    · by_cases hl : firstCellHeaderLabel first = true <;> simp [hl]
    · by_cases hl : firstCellHeaderLabel first = true <;>
        by_cases hm : firstCellMarker second = true <;> simp [hl, hm]

theorem afterFirstDash_of_no_dash (l : List Char) (h : ∀ ch ∈ l, ch ≠ '-') :
    afterFirstDash l = none := by
  induction l with
  | nil => rfl
  | cons c cs ih =>
    have hc : c ≠ '-' := h c (by simp)
    simp only [afterFirstDash, if_neg hc]
    exact ih fun ch hm => h ch (by simp [hm])

theorem afterFirstDash_append (pre post : List Char) (h : ∀ ch ∈ pre, ch ≠ '-') :
    afterFirstDash (pre ++ '-' :: post) = some post := by
  induction pre with
  | nil => simp [afterFirstDash]
  | cons c cs ih =>
    have hc : c ≠ '-' := h c (by simp)
    simp only [List.cons_append, afterFirstDash, if_neg hc]
    exact ih fun ch hm => h ch (by simp [hm])

theorem dropLastExt_append_xls (base : List Char) (h : ∀ ch ∈ base, ch ≠ '.') :
    dropLastExt (base ++ ('.' :: ['x', 'l', 's'])) = base := by
  induction base with
  | nil => decide
  | cons c cs ih =>
    have hc : c ≠ '.' := h c (by simp)
    simp only [List.cons_append, dropLastExt, List.append_eq]
    rw [if_neg (by simp [hc])]
    rw [ih fun ch hm => h ch (by simp [hm])]

/-- C5: counterexample. The claim says only a leading numeric `NN-` prefix
is stripped from the stem, so `Nanjing-East.xls` — whose stem has a dash
but no numeric prefix — should keep the full stem `Nanjing-East` as its
city label. The code splits at the first dash regardless and yields
`East`. -/
theorem c5_counterexample :
    stem "Nanjing-East.xls" = "Nanjing-East" ∧
    cityLabel (stem "Nanjing-East.xls") = "East" ∧
    ("East" : String) ≠ "Nanjing-East" := by decide

/-- C5 amended: the city label is the file stem with everything up to and
including the FIRST dash removed whenever the stem contains a dash — be
the part before the dash numeric or not — and the full stem when it
contains no dash; the stem itself drops the `.xls` extension. -/
theorem c5_city_label_amended :
    (∀ pre post : String, (∀ ch ∈ pre.data, ch ≠ '-') →
      cityLabel (pre ++ "-" ++ post) = post) ∧
    (∀ s : String, (∀ ch ∈ s.data, ch ≠ '-') → cityLabel s = s) ∧
    (∀ base : String, (∀ ch ∈ base.data, ch ≠ '.') →
      stem (base ++ ".xls") = base) := by
  refine ⟨?_, ?_, ?_⟩
  · intro pre post h
    unfold cityLabel
    have hdata : (pre ++ "-" ++ post).data = pre.data ++ '-' :: post.data := by
      rw [String.data_append, String.data_append, List.append_assoc]
      rfl
    rw [hdata, afterFirstDash_append pre.data post.data h]
  · intro s h
    unfold cityLabel
    rw [afterFirstDash_of_no_dash s.data h]
  · intro base h
    unfold stem
    have hdata : (base ++ ".xls").data = base.data ++ '.' :: ['x', 'l', 's'] := by
      rw [String.data_append]
    rw [hdata, dropLastExt_append_xls base.data h]

/-- C5 witness: the amended behaviour at concrete names. -/
theorem c5_city_label_amended_witness :
    cityLabel (("01" : String) ++ "-" ++ "Suzhou") = "Suzhou" ∧
    cityLabel "Wuxi" = "Wuxi" ∧
    stem (("Suzhou" : String) ++ ".xls") = "Suzhou" :=
  ⟨c5_city_label_amended.1 "01" "Suzhou" (by decide),
   c5_city_label_amended.2.1 "Wuxi" (by decide),
   c5_city_label_amended.2.2 "Suzhou" (by decide)⟩

/-- The 14 positionally-mapped fields of a record, in column order. -/
def columnFields (j : Job) : List String :=
  [j.r, j.rc, j.rn, j.uc, j.un, j.pc, j.pn, j.pd, j.et, j.kr, j.rh, j.ed,
    j.mj, j.ot]

/-- C6: every record carries exactly the 15 short keys (the fields of
`Job`, all string-valued, by construction); the 14 column fields are the
stripped cells 0-13 in order, and a cell beyond the row's width
contributes the empty string, never an omitted key. -/
theorem c6_fields_positional_blank_default :
    (∀ (city : String) (row : Row),
      columnFields (mkJob city row) = (List.range 14).map (cellStr row) ∧
      (mkJob city row).c = city) ∧
    (∀ (row : Row) (i : Nat), row.length ≤ i → cellStr row i = "") := by
  constructor
  · intro city row
    exact ⟨rfl, rfl⟩
  · intro row i h
    unfold cellStr
    rw [List.getD_eq_default row none h]

/-- C6 witness: a one-cell row still yields all 14 column fields, the
missing trailing ones empty. -/
theorem c6_fields_witness :
    (columnFields (mkJob "南京" [some "省属"]) =
      (List.range 14).map (cellStr [some "省属"]) ∧
      (mkJob "南京" [some "省属"]).c = "南京") ∧
    cellStr ([some "省属"] : Row) 6 = "" :=
  ⟨c6_fields_positional_blank_default.1 "南京" [some "省属"],
   c6_fields_positional_blank_default.2 [some "省属"] 6 (by decide)⟩

/-- C7: a file-level failure (a file pandas cannot read, modelled as a
`none` content) contributes exactly zero records and leaves every other
file's contribution unchanged; the run continues (the collector is a
total function). -/
theorem c7_bad_file_skipped (pre post : List DirEntry) (bad : DirEntry)
    (h : bad.content = none) :
    collectJobs (pre ++ bad :: post) = collectJobs pre ++ collectJobs post := by
  simp [collectJobs, h, read_excel_file]

def c7good : DirEntry :=
  ⟨"01-A.xls", some ⟨[[some "标题"], [some "隶属关系"],
    [some "省级", some "01", some "区", some "001", some "某单位",
      some "1001", some "科员"]]⟩⟩

def c7bad : DirEntry := ⟨"02-B.xls", none⟩

/-- C7 witness: one good file, one unreadable file. -/
theorem c7_bad_file_skipped_witness :
    collectJobs ([c7good] ++ c7bad :: []) =
      collectJobs [c7good] ++ collectJobs [] :=
  c7_bad_file_skipped [c7good] [] c7bad rfl

/-- C8: when the hard-coded input directory is missing the run reports the
error and stops before any work — the output file keeps its previous
content; in every other case the run proceeds and writes the document. -/
theorem c8_missing_dir_aborts (w : World) :
    (w.dirExists = false → mainRun w = (w, true)) ∧
    (w.dirExists = true →
      mainRun w = ({ w with output := some (process_all_excel_files w.dir) },
        false)) := by
  constructor <;> intro h <;> simp [mainRun, h]

/-- C8 witness: both branches at concrete worlds. -/
theorem c8_missing_dir_aborts_witness :
    mainRun ⟨false, [], some (process_all_excel_files [])⟩ =
      (⟨false, [], some (process_all_excel_files [])⟩, true) ∧
    mainRun ⟨true, [], none⟩ =
      (⟨true, [], some (process_all_excel_files [])⟩, false) :=
  ⟨(c8_missing_dir_aborts _).1 rfl, (c8_missing_dir_aborts _).2 rfl⟩

theorem nameLe_trans (a b c : DirEntry) (hab : nameLe a b = true)
    (hbc : nameLe b c = true) : nameLe a c = true := by
  simp only [nameLe, decide_eq_true_eq] at hab hbc ⊢
  exact le_trans hab hbc

theorem nameLe_total (a b : DirEntry) : (nameLe a b || nameLe b a) = true := by
  simp only [nameLe, Bool.or_eq_true, decide_eq_true_eq]
  exact le_total a.name b.name

theorem discoverEntries_eq_ite (dir : List DirEntry) :
    discoverEntries dir =
      if ((dir.filter fun e => nameEndsWith e.name ".xls").mergeSort
          nameLe).isEmpty = true
      then (dir.filter fun e => nameEndsWith e.name ".xlsx").mergeSort nameLe
      else (dir.filter fun e => nameEndsWith e.name ".xls").mergeSort nameLe :=
  rfl

/-- C9: discovery returns exactly the `.xls` entries of the directory,
sorted lexicographically by name, and falls back to the sorted `.xlsx`
entries only when no `.xls` entry exists — so one run never mixes the two
formats. -/
theorem c9_discovery_order (dir : List DirEntry) :
    (dir.filter (fun e => nameEndsWith e.name ".xls") ≠ [] →
      (discoverEntries dir).Perm
        (dir.filter (fun e => nameEndsWith e.name ".xls")) ∧
      ∀ e ∈ discoverEntries dir, nameEndsWith e.name ".xls" = true) ∧
    (dir.filter (fun e => nameEndsWith e.name ".xls") = [] →
      (discoverEntries dir).Perm
        (dir.filter (fun e => nameEndsWith e.name ".xlsx")) ∧
      ∀ e ∈ discoverEntries dir, nameEndsWith e.name ".xlsx" = true) ∧
    List.Pairwise (fun a b => a.name ≤ b.name) (discoverEntries dir) := by
  have hperm : ∀ l : List DirEntry, (l.mergeSort nameLe).Perm l :=
    fun l => List.mergeSort_perm l nameLe
  have hnil : ∀ l : List DirEntry,
      (l.mergeSort nameLe).isEmpty = true ↔ l = [] := by
    intro l
    rw [List.isEmpty_iff]
    constructor
    · intro h
      have hp := hperm l
      rw [h] at hp
      exact hp.symm.eq_nil
    · rintro rfl
      exact List.mergeSort_nil
  refine ⟨?_, ?_, ?_⟩
  · intro hne
    have hcond : ¬(((dir.filter fun e => nameEndsWith e.name ".xls").mergeSort
        nameLe).isEmpty = true) := fun hh => hne ((hnil _).mp hh)
    have hd : discoverEntries dir =
        (dir.filter fun e => nameEndsWith e.name ".xls").mergeSort nameLe := by
      rw [discoverEntries_eq_ite, if_neg hcond]
    refine ⟨hd ▸ hperm _, ?_⟩
    intro e he
    rw [hd] at he
    exact (List.mem_filter.mp ((hperm _).mem_iff.mp he)).2
  · intro hzero
    have hcond : ((dir.filter fun e => nameEndsWith e.name ".xls").mergeSort
        nameLe).isEmpty = true := (hnil _).mpr hzero
    have hd : discoverEntries dir =
        (dir.filter fun e => nameEndsWith e.name ".xlsx").mergeSort nameLe := by
      rw [discoverEntries_eq_ite, if_pos hcond]
    refine ⟨hd ▸ hperm _, ?_⟩
    intro e he
    rw [hd] at he
    exact (List.mem_filter.mp ((hperm _).mem_iff.mp he)).2
  · have hsort : ∀ l : List DirEntry,
        List.Pairwise (fun a b => a.name ≤ b.name) (l.mergeSort nameLe) := by
      intro l
      have hp := List.sorted_mergeSort nameLe_trans nameLe_total l
      exact hp.imp fun h => of_decide_eq_true h
    rw [discoverEntries_eq_ite]
    split
    · exact hsort _
    · exact hsort _

def c9dirA : List DirEntry :=
  [⟨"02-b.xls", none⟩, ⟨"01-a.xls", none⟩, ⟨"03-c.xlsx", none⟩]

def c9dirB : List DirEntry := [⟨"02-b.xlsx", none⟩, ⟨"01-a.xlsx", none⟩]

/-- C9 witness: a mixed directory keeps only the `.xls` entries; a
directory with only `.xlsx` entries falls back to those. -/
theorem c9_discovery_order_witness :
    ((discoverEntries c9dirA).Perm
        (c9dirA.filter (fun e => nameEndsWith e.name ".xls")) ∧
      ∀ e ∈ discoverEntries c9dirA, nameEndsWith e.name ".xls" = true) ∧
    ((discoverEntries c9dirB).Perm
        (c9dirB.filter (fun e => nameEndsWith e.name ".xlsx")) ∧
      ∀ e ∈ discoverEntries c9dirB, nameEndsWith e.name ".xlsx" = true) :=
  ⟨(c9_discovery_order c9dirA).1 (by decide),
   (c9_discovery_order c9dirB).2.1 (by decide)⟩

theorem pyStrip_data_within (s : String) : (pyStrip s).data <:+: s.data := by
  show (((s.data.dropWhile Char.isWhitespace).reverse.dropWhile
    Char.isWhitespace).reverse) <:+: s.data
  have h1 : s.data.dropWhile Char.isWhitespace <:+ s.data :=
    List.dropWhile_suffix _
  have h2 : (s.data.dropWhile Char.isWhitespace).reverse.dropWhile
      Char.isWhitespace <:+ (s.data.dropWhile Char.isWhitespace).reverse :=
    List.dropWhile_suffix _
  have h3 : ((s.data.dropWhile Char.isWhitespace).reverse.dropWhile
      Char.isWhitespace).reverse <+: s.data.dropWhile Char.isWhitespace := by
    rw [← List.reverse_suffix]
    simpa using h2
  exact List.IsInfix.trans h3.isInfix h1.isInfix

theorem pyIn_pyStrip_eq_false (m s : String) (h : pyIn m s = false) :
    pyIn m (pyStrip s) = false := by
  rw [pyIn, decide_eq_false_iff_not] at h ⊢
  intro hc
  exact h (hc.trans (pyStrip_data_within s))

/-- C10: every retained record's affiliation field `r` is non-blank and
contains neither header-marker substring, and a row whose first cell is
blank or carries a marker substring is never emitted, whatever its
position-name or unit-name. -/
theorem c10_affiliation_invariant :
    (∀ (f : ExcelFile) (city : String) (job : Job), job ∈ parseJobs f city →
      job.r ≠ "" ∧ pyIn "隶属" job.r = false ∧ pyIn "关系" job.r = false) ∧
    (∀ (city : String) (row : Row),
      firstCellBlank row = true ∨ firstCellMarker row = true →
        rowJob city row = none) := by
  constructor
  · intro f city job hmem
    rw [parseJobs, mem_extractJobs] at hmem
    obtain ⟨row, hrow, hret, rfl⟩ := hmem
    obtain ⟨hblank, hmark, -⟩ := (retain_eq_true_iff row).mp hret
    cases hg : row.getD 0 none with
    | none =>
      simp only [firstCellBlank, hg] at hblank
      exact absurd hblank (by decide)
    | some s =>
      simp only [firstCellBlank, hg, beq_eq_false_iff_ne] at hblank
      simp only [firstCellMarker, hg, Bool.or_eq_false_iff] at hmark
      refine ⟨?_, ?_, ?_⟩
      · show cellStr row 0 ≠ ""
        simp only [cellStr, hg]
        exact hblank
      · show pyIn "隶属" (cellStr row 0) = false
        simp only [cellStr, hg]
        exact pyIn_pyStrip_eq_false _ _ hmark.1
      · show pyIn "关系" (cellStr row 0) = false
        simp only [cellStr, hg]
        exact pyIn_pyStrip_eq_false _ _ hmark.2
  · rintro city row (h | h) <;> rw [rowJob]
    · rw [if_pos h]
    · by_cases hb : firstCellBlank row = true
      · rw [if_pos hb]
      · rw [if_neg hb, if_pos h]

def c10row : Row := [some "省级", some "3201", some "市辖区", some "001",
  some "某某单位", some "1001", some "科员岗"]

def c10file : ExcelFile := ⟨[[some "标题行"], [some "隶属关系表头"], c10row]⟩

/-- C10 witness: a retained record from a concrete file, and a blank-first
row that is dropped. -/
theorem c10_affiliation_invariant_witness :
    ((mkJob "南京" c10row).r ≠ "" ∧
      pyIn "隶属" (mkJob "南京" c10row).r = false ∧
      pyIn "关系" (mkJob "南京" c10row).r = false) ∧
    rowJob "南京" ([none] : Row) = none :=
  ⟨c10_affiliation_invariant.1 c10file "南京" (mkJob "南京" c10row) (by decide),
   c10_affiliation_invariant.2 "南京" [none] (Or.inl (by decide))⟩
